/-
Verification of the uc-intg-anthemav protocol client against its
natural-language specification.

The parser (`src/uc_intg_anthemav/parser.py`), the listening-mode tables
(`parser.py`, `remote.py`), and the volume conversions
(`src/uc_intg_anthemav/media_player.py`) are embedded below as executable
Lean functions over `List Char` (one character per Python `str` element;
the wire protocol is ASCII).  Python regular expressions are embedded by
hand: `re.match`/`re.search` semantics, including greedy quantifiers with
single-step backtracking and the fact that `.` does not match a newline,
are reproduced exactly for the concrete patterns the source uses.
-/
import Mathlib

/-- The tagged union of parsed wire messages, one constructor per dataclass in
`src/uc_intg_anthemav/models.py` (field order follows the dataclasses). -/
inductive ParsedMessage where
  | SystemModel (model : String)
  | InputCount (count : Nat)
  | InputName (input_number : Nat) (name : String)
  | ZonePower (zone : Nat) (is_on : Bool)
  | ZoneVolume (zone : Nat) (volume_db : Int)
  | ZoneMute (zone : Nat) (is_muted : Bool)
  | ZoneInput (zone : Nat) (input_number : Nat)
  | ZoneAudioFormat (zone : Nat) (format : String)
  | ZoneAudioChannels (zone : Nat) (channels : String)
  | ZoneVideoResolution (zone : Nat) (resolution : String)
  | ZoneListeningMode (zone : Nat) (mode_name : String) (mode_number : Nat)
  | ZoneSampleRateInfo (zone : Nat) (info : String)
  | ZoneSampleRate (zone : Nat) (rate_khz : Nat)
  | ZoneBitDepth (zone : Nat) (depth : Nat)
deriving Repr, DecidableEq

/-- The zone field of a message, `some` exactly on the zone-scoped variants
(the subclasses of `ZoneMessage` in `models.py`). -/
def zoneOf : ParsedMessage → Option Nat
  | .SystemModel _ => none
  | .InputCount _ => none
  | .InputName _ _ => none
  | .ZonePower z _ => some z
  | .ZoneVolume z _ => some z
  | .ZoneMute z _ => some z
  | .ZoneInput z _ => some z
  | .ZoneAudioFormat z _ => some z
  | .ZoneAudioChannels z _ => some z
  | .ZoneVideoResolution z _ => some z
  | .ZoneListeningMode z _ _ => some z
  | .ZoneSampleRateInfo z _ => some z
  | .ZoneSampleRate z _ => some z
  | .ZoneBitDepth z _ => some z

/-- Python `pat in s` substring containment. -/
def listContains (pat : List Char) : List Char → Bool
  | [] => pat.isEmpty
  | c :: t => pat.isPrefixOf (c :: t) || listContains pat t

/-- Substring containment with a string-literal pattern (Python `"X" in payload`). -/
def hasSub (pat : String) (s : List Char) : Bool :=
  listContains pat.toList s

/-- Python `int` applied to a nonempty string of ASCII digits. -/
def digitsToNat (ds : List Char) : Nat :=
  ds.foldl (fun a c => 10 * a + (c.toNat - 48)) 0

/-- The whitespace class stripped by Python `str.strip()` (ASCII part). -/
def isPySpace (c : Char) : Bool :=
  c == ' ' || c == '\t' || c == '\n' || c == '\r' || c == '\x0b' || c == '\x0c'

/-- Python `str.strip()`. -/
def pyStrip (s : List Char) : List Char :=
  ((s.dropWhile isPySpace).reverse.dropWhile isPySpace).reverse

/-- Attempt of `re` pattern `KEY(\d+)` anchored at the start of `s`:
the literal key followed by one or more digits (greedy). -/
def tryKeyNat (key s : List Char) : Option Nat :=
  if key.isPrefixOf s then
    let ds := (s.drop key.length).takeWhile Char.isDigit
    if ds.isEmpty then none else some (digitsToNat ds)
  else none

/-- `re.search(r"KEY(\d+)", s)`: leftmost position where the key is followed
by at least one digit. -/
def searchKeyNat (key : List Char) : List Char → Option Nat
  | [] => none
  | c :: t =>
    match tryKeyNat key (c :: t) with
    | some n => some n
    | none => searchKeyNat key t

/-- Attempt of `re` pattern `VOL(-?\d+)` anchored at the start of `s`.
`-?` is tried with the minus sign first; if no digit follows, the regex
engine retries without it and then fails on the non-digit `-`. -/
def tryVolAt (s : List Char) : Option Int :=
  match s with
  | 'V' :: 'O' :: 'L' :: r =>
    match r with
    | '-' :: r2 =>
      let ds := r2.takeWhile Char.isDigit
      if ds.isEmpty then none else some (-(digitsToNat ds : Int))
    | _ =>
      let ds := r.takeWhile Char.isDigit
      if ds.isEmpty then none else some ((digitsToNat ds : Int))
  | _ => none

/-- `re.search(r"VOL(-?\d+)", s)`. -/
def searchVol : List Char → Option Int
  | [] => none
  | c :: t =>
    match tryVolAt (c :: t) with
    | some v => some v
    | none => searchVol t

/-- Attempt of `re` pattern `KEY(.+)` anchored at the start of `s`:
`.` does not match `'\n'`, and `(.+)` greedily captures everything up to
the next newline (or the end), requiring at least one character. -/
def tryKeyRest (key s : List Char) : Option (List Char) :=
  if key.isPrefixOf s then
    let grp := (s.drop key.length).takeWhile (· != '\n')
    if grp.isEmpty then none else some grp
  else none

/-- `re.search(r"KEY(.+)", s)`. -/
def searchKeyRest (key : List Char) : List Char → Option (List Char)
  | [] => none
  | c :: t =>
    match tryKeyRest key (c :: t) with
    | some r => some r
    | none => searchKeyRest key t

/-- The 16-entry listening-mode dictionary of `_get_listening_mode_name`
(`src/uc_intg_anthemav/parser.py`). -/
def mode_names : List (Nat × String) :=
  [(0, "None"),
   (1, "AnthemLogic Cinema"),
   (2, "AnthemLogic Music"),
   (3, "Dolby Surround"),
   (4, "DTS Neural:X"),
   (5, "Stereo"),
   (6, "Multi-Channel Stereo"),
   (7, "All-Channel Stereo"),
   (8, "PLIIx Movie"),
   (9, "PLIIx Music"),
   (10, "Neo:6 Cinema"),
   (11, "Neo:6 Music"),
   (12, "Dolby Digital"),
   (13, "DTS"),
   (14, "PCM Stereo"),
   (15, "Direct")]

/-- `_get_listening_mode_name` from `parser.py`: dictionary lookup with the
fallback `f"Mode {mode_num}"`.  The mode number always comes from `\d+`,
hence `Nat`. -/
def _get_listening_mode_name (mode_num : Nat) : String :=
  match mode_names.lookup mode_num with
  | some nm => nm
  | none => "Mode " ++ toString mode_num

/-- The zone-payload dispatch of `parse_message` (`parser.py` lines 61-116):
an if-chain on substring containment where a branch whose inner regex
extraction fails falls through to the next branch. -/
def zoneDispatch (z : Nat) (p : List Char) : Option ParsedMessage :=
  (if hasSub "POW" p then some (ParsedMessage.ZonePower z (hasSub "1" p)) else none) <|>
  (if hasSub "VOL" p then (searchVol p).map (fun v => ParsedMessage.ZoneVolume z v) else none) <|>
  (if hasSub "MUT" p then some (ParsedMessage.ZoneMute z (hasSub "1" p)) else none) <|>
  (if hasSub "INP" p then (searchKeyNat "INP".toList p).map (fun n => ParsedMessage.ZoneInput z n) else none) <|>
  (if hasSub "AIF" p then (searchKeyRest "AIF".toList p).map (fun r => ParsedMessage.ZoneAudioFormat z (pyStrip r).asString) else none) <|>
  (if hasSub "AIC" p then (searchKeyRest "AIC".toList p).map (fun r => ParsedMessage.ZoneAudioChannels z (pyStrip r).asString) else none) <|>
  (if hasSub "VIR" p then (searchKeyRest "VIR".toList p).map (fun r => ParsedMessage.ZoneVideoResolution z (pyStrip r).asString) else none) <|>
  (if hasSub "ALM" p && ! (hasSub "?" p) then (searchKeyNat "ALM".toList p).map (fun n => ParsedMessage.ZoneListeningMode z (_get_listening_mode_name n) n) else none) <|>
  (if hasSub "AIR" p then (searchKeyRest "AIR".toList p).map (fun r => ParsedMessage.ZoneSampleRateInfo z (pyStrip r).asString) else none) <|>
  (if hasSub "SRT" p then (searchKeyNat "SRT".toList p).map (fun n => ParsedMessage.ZoneSampleRate z n) else none) <|>
  (if hasSub "BDP" p then (searchKeyNat "BDP".toList p).map (fun n => ParsedMessage.ZoneBitDepth z n) else none)

/-- `re.match(r"ICN(\d+)", response)`. -/
def matchICN (s : List Char) : Option Nat :=
  match s with
  | 'I' :: 'C' :: 'N' :: rest =>
    let ds := rest.takeWhile Char.isDigit
    if ds.isEmpty then none else some (digitsToNat ds)
  | _ => none

/-- `\d{1,2}` taking two digits, then the literal `IN`, then `(.+)`. -/
def isTryTwo (rest : List Char) : Option (Nat × List Char) :=
  match rest with
  | d1 :: d2 :: 'I' :: 'N' :: nm =>
    if d1.isDigit && d2.isDigit then
      let grp := nm.takeWhile (· != '\n')
      if grp.isEmpty then none else some (digitsToNat [d1, d2], grp)
    else none
  | _ => none

/-- `\d{1,2}` backtracked to one digit, then the literal `IN`, then `(.+)`. -/
def isTryOne (rest : List Char) : Option (Nat × List Char) :=
  match rest with
  | d1 :: 'I' :: 'N' :: nm =>
    if d1.isDigit then
      let grp := nm.takeWhile (· != '\n')
      if grp.isEmpty then none else some (digitsToNat [d1], grp)
    else none
  | _ => none

/-- `re.match(r"IS(\d{1,2})IN(.+)", response)`: the greedy `\d{1,2}` tries
two digits before backtracking to one. -/
def matchIS (s : List Char) : Option (Nat × List Char) :=
  match s with
  | 'I' :: 'S' :: rest =>
    match isTryTwo rest with
    | some r => some r
    | none => isTryOne rest
  | _ => none

/-- Backtracking step of `re.match(r"Z(\d+)(.+)", response)`: when `(.+)`
cannot start after the greedy `\d+` (end of string, or a newline, which `.`
does not match), `\d+` gives back exactly its last digit — a digit is never
a newline, so `(.+)` then succeeds capturing just that digit. -/
def backtrackZ (ds : List Char) : Option (Nat × List Char) :=
  if ds.length < 2 then none
  else some (digitsToNat ds.dropLast, [ds.getLastD '0'])

/-- Core of `re.match(r"Z(\d+)(.+)", response)` after the leading `Z`,
given the maximal digit run `ds` and the remainder `tl`. -/
def matchZoneAux (ds tl : List Char) : Option (Nat × List Char) :=
  if ds.isEmpty then none
  else
    match tl with
    | [] => backtrackZ ds
    | c :: _ =>
      if c = '\n' then backtrackZ ds
      else some (digitsToNat ds, tl.takeWhile (· != '\n'))

/-- `re.match(r"Z(\d+)(.+)", response)`, returning the zone number and the
captured payload. -/
def matchZone (s : List Char) : Option (Nat × List Char) :=
  match s with
  | 'Z' :: rest => matchZoneAux (rest.takeWhile Char.isDigit) (rest.dropWhile Char.isDigit)
  | _ => none

/-- `parse_message` from `src/uc_intg_anthemav/parser.py`: empty and error
lines are dropped, then the system-message patterns are tried, then the
zone pattern with its keyword dispatch. -/
def parse_message (s : List Char) : Option ParsedMessage :=
  if s.isEmpty then none
  else if "!I".toList.isPrefixOf s || "!E".toList.isPrefixOf s then none
  else if "IDM".toList.isPrefixOf s then some (ParsedMessage.SystemModel (pyStrip (s.drop 3)).asString)
  else
    match matchICN s with
    | some n => some (ParsedMessage.InputCount n)
    | none =>
      match matchIS s with
      | some (i, nm) => some (ParsedMessage.InputName i (pyStrip nm).asString)
      | none =>
        match matchZone s with
        | some (z, p) => zoneDispatch z p
        | none => none

/-- `AnthemRemote.LISTENING_MODES` from `src/uc_intg_anthemav/remote.py`. -/
def LISTENING_MODES : List (String × Nat) :=
  [("None", 0),
   ("AnthemLogic Cinema", 1),
   ("AnthemLogic Music", 2),
   ("Dolby Surround", 3),
   ("DTS Neural:X", 4),
   ("Stereo", 5),
   ("Multi-Channel Stereo", 6),
   ("All-Channel Stereo", 7),
   ("PLIIx Movie", 8),
   ("PLIIx Music", 9),
   ("Neo:6 Cinema", 10),
   ("Neo:6 Music", 11),
   ("Dolby Digital", 12),
   ("DTS", 13),
   ("PCM Stereo", 14),
   ("Direct", 15)]

/-- Priority keys of the zone dispatch, in source order, for the spec-side
formulation of claim C6. -/
inductive DispatchKey where
  | pow | vol | mut | inp | aif | aic | vir | alm | air | srt | bdp
deriving Repr, DecidableEq

/-- Spec-side description of one dispatch step ("dispatch on substring
containment ... the result is the message kind of the earliest keyword that
completes its extraction"); branch bodies are those of `zoneDispatch`. -/
def keywordExtract (z : Nat) (p : List Char) : DispatchKey → Option ParsedMessage
  | .pow => if hasSub "POW" p then some (ParsedMessage.ZonePower z (hasSub "1" p)) else none
  | .vol => if hasSub "VOL" p then (searchVol p).map (fun v => ParsedMessage.ZoneVolume z v) else none
  | .mut => if hasSub "MUT" p then some (ParsedMessage.ZoneMute z (hasSub "1" p)) else none
  | .inp => if hasSub "INP" p then (searchKeyNat "INP".toList p).map (fun n => ParsedMessage.ZoneInput z n) else none
  | .aif => if hasSub "AIF" p then (searchKeyRest "AIF".toList p).map (fun r => ParsedMessage.ZoneAudioFormat z (pyStrip r).asString) else none
  | .aic => if hasSub "AIC" p then (searchKeyRest "AIC".toList p).map (fun r => ParsedMessage.ZoneAudioChannels z (pyStrip r).asString) else none
  | .vir => if hasSub "VIR" p then (searchKeyRest "VIR".toList p).map (fun r => ParsedMessage.ZoneVideoResolution z (pyStrip r).asString) else none
  | .alm => if hasSub "ALM" p && ! (hasSub "?" p) then (searchKeyNat "ALM".toList p).map (fun n => ParsedMessage.ZoneListeningMode z (_get_listening_mode_name n) n) else none
  | .air => if hasSub "AIR" p then (searchKeyRest "AIR".toList p).map (fun r => ParsedMessage.ZoneSampleRateInfo z (pyStrip r).asString) else none
  | .srt => if hasSub "SRT" p then (searchKeyNat "SRT".toList p).map (fun n => ParsedMessage.ZoneSampleRate z n) else none
  | .bdp => if hasSub "BDP" p then (searchKeyNat "BDP".toList p).map (fun n => ParsedMessage.ZoneBitDepth z n) else none

/-- The fixed priority order POW, VOL, MUT, INP, AIF, AIC, VIR, ALM, AIR,
SRT, BDP from the spec. -/
def dispatchOrder : List DispatchKey :=
  [.pow, .vol, .mut, .inp, .aif, .aic, .vir, .alm, .air, .srt, .bdp]

/-- Spec-side zone dispatch: the first keyword in priority order whose
extraction completes. -/
def zoneDispatchSpec (z : Nat) (p : List Char) : Option ParsedMessage :=
  dispatchOrder.findSome? (keywordExtract z p)

/-- Python `int()` applied to a real number: truncation toward zero.
Volume percentages are modelled as rationals. -/
def pyTrunc (q : ℚ) : ℤ :=
  if 0 ≤ q then ⌊q⌋ else ⌈q⌉

/-- `AnthemMediaPlayer._db_to_percentage` (`media_player.py` lines 132-135):
`((db_value + 90) / 90) * 100` clamped to `[0, 100]`. -/
def _db_to_percentage (db_value : ℤ) : ℚ :=
  max 0 (min 100 (((db_value : ℚ) + 90) / 90 * 100))

/-- `AnthemMediaPlayer._percentage_to_db` (`media_player.py` lines 137-140):
`int((percentage * 90) - 90)` clamped to `[-90, 0]`.  Note the source does
NOT divide the percentage by 100. -/
def _percentage_to_db (percentage : ℚ) : ℤ :=
  max (-90) (min 0 (pyTrunc (percentage * 90 - 90)))

/-- The conversion claimed by the spec for C1:
`db = round(pct * 90 / 100) - 90`, clamped to `[-90, 0]`.  Stated from the
spec wording, for comparison with `_percentage_to_db`. -/
def percentage_to_db_spec (pct : ℚ) : ℤ :=
  max (-90) (min 0 (round (pct * 90 / 100) - 90))

/-- `ZoneState` from `src/uc_intg_anthemav/models.py`, with its dataclass
defaults given by `initZoneState` below. -/
structure ZoneState where
  power : Bool
  volume_db : Int
  muted : Bool
  input_number : Nat
  input_name : String
  audio_format : String
  audio_channels : String
  video_resolution : String
  listening_mode : String
  sample_rate : String
deriving Repr, DecidableEq

/-- The dataclass defaults of `ZoneState` in `models.py`. -/
def initZoneState : ZoneState :=
  ⟨false, -90, false, 1, "Unknown", "Unknown", "Unknown", "Unknown", "Unknown", "Unknown"⟩

/-- Modelled from the spec: the device module (`device.py`, imported by
`remote.py` and exercised by `src/tests/test_device_logic.py`) is not under
`src/`.  `test_is_sensor_zone` pins this predicate: zone 1 is the only
sensor zone. -/
def _is_sensor_zone (zone : Nat) : Bool :=
  zone == 1

/-- Modelled from the spec: the per-device session state of `AnthemDevice`
(spec section 3, `DeviceSession`): per-zone states (lazily created, so a
total function), plus the session-level model, input count and input
names. -/
structure AnthemDevice where
  zones : Nat → ZoneState
  model : String
  input_count : Nat
  input_names : List (Nat × String)

/-- A fresh device session with no telemetry observed yet. -/
def initDevice : AnthemDevice :=
  ⟨fun _ => initZoneState, "Unknown", 0, []⟩

/-- Point update of one zone's state. -/
def updateZone (d : AnthemDevice) (z : Nat) (f : ZoneState → ZoneState) : AnthemDevice :=
  { d with zones := fun w => if w = z then f (d.zones w) else d.zones w }

/-- Modelled from the spec: `AnthemDevice._handle_message` (`device.py`, not
under `src/`).  Spec sections 4.2 and 4.4: fold the parsed message into the
zone/session state, then emit one update notification to subscribers —
except that sensor telemetry (audio format, channels, resolution, listening
mode, sample-rate family, bit depth) is emitted only when the affected zone
is a sensor zone (zone 1); for other zones it is folded into state with no
notification.  `test_sensor_update_emitted_only_for_zone1` pins this rule.
Emissions are modelled as `(zone?, field)` pairs.  `ZoneState` in
`models.py` has no bit-depth field, so `ZoneBitDepth` only emits. -/
def _handle_message (d : AnthemDevice) (m : ParsedMessage) : AnthemDevice × List (Option Nat × String) :=
  match m with
  | .SystemModel md => ({ d with model := md }, [(none, "model")])
  | .InputCount n => ({ d with input_count := n }, [(none, "input_count")])
  | .InputName i nm => ({ d with input_names := (i, nm) :: d.input_names }, [(none, "input_name")])
  | .ZonePower z b => (updateZone d z (fun st => { st with power := b }), [(some z, "power")])
  | .ZoneVolume z v => (updateZone d z (fun st => { st with volume_db := v }), [(some z, "volume")])
  | .ZoneMute z b => (updateZone d z (fun st => { st with muted := b }), [(some z, "muted")])
  | .ZoneInput z n => (updateZone d z (fun st => { st with input_number := n }), [(some z, "input_number")])
  | .ZoneAudioFormat z s =>
    (updateZone d z (fun st => { st with audio_format := s }),
     if _is_sensor_zone z then [(some z, "audio_format")] else [])
  | .ZoneAudioChannels z s =>
    (updateZone d z (fun st => { st with audio_channels := s }),
     if _is_sensor_zone z then [(some z, "audio_channels")] else [])
  | .ZoneVideoResolution z s =>
    (updateZone d z (fun st => { st with video_resolution := s }),
     if _is_sensor_zone z then [(some z, "video_resolution")] else [])
  | .ZoneListeningMode z nm _ =>
    (updateZone d z (fun st => { st with listening_mode := nm }),
     if _is_sensor_zone z then [(some z, "listening_mode")] else [])
  | .ZoneSampleRateInfo z s =>
    (updateZone d z (fun st => { st with sample_rate := s }),
     if _is_sensor_zone z then [(some z, "sample_rate")] else [])
  | .ZoneSampleRate z r =>
    (updateZone d z (fun st => { st with sample_rate := toString r }),
     if _is_sensor_zone z then [(some z, "sample_rate")] else [])
  | .ZoneBitDepth z _ =>
    (d, if _is_sensor_zone z then [(some z, "bit_depth")] else [])

theorem or_eq_some {α : Type} {a : Option α} {b : Option α} {m : α}
    (h : (a <|> b) = some m) : a = some m ∨ (a = none ∧ b = some m) := by
  cases a with
  | some x => simp at h; simp [h]
  | none => simp at h; simp [h]

theorem isPrefixOf_length_le :
    ∀ (a b : List Char), a.isPrefixOf b = true → a.length ≤ b.length := by
  intro a
  induction a with
  | nil => intro b _; simp
  | cons x xs ih =>
    intro b h
    cases b with
    | nil => simp [List.isPrefixOf] at h
    | cons y ys =>
      simp only [List.isPrefixOf, Bool.and_eq_true] at h
      simpa using ih ys h.2

theorem listContains_length {pat : List Char} :
    ∀ {s : List Char}, listContains pat s = true → pat.length ≤ s.length := by
  intro s
  induction s with
  | nil =>
    intro h
    simp only [listContains, List.isEmpty_iff] at h
    simp [h]
  | cons c t ih =>
    intro h
    simp only [listContains, Bool.or_eq_true] at h
    rcases h with h | h
    · exact isPrefixOf_length_le _ _ h
    · exact le_trans (ih h) (by simp)

theorem hasSub_false_of_short {pat : String} {s : List Char}
    (h : s.length < pat.toList.length) : hasSub pat s = false := by
  cases hc : hasSub pat s with
  | false => rfl
  | true => exact absurd (listContains_length hc) (by omega)

theorem zoneDispatch_single (z : Nat) (c : Char) : zoneDispatch z [c] = none := by
  have key : ∀ pat : String, pat.toList.length = 3 → hasSub pat [c] = false :=
    fun pat hp => hasSub_false_of_short (by rw [hp]; simp)
  simp [zoneDispatch, key "POW" rfl, key "VOL" rfl, key "MUT" rfl, key "INP" rfl,
    key "AIF" rfl, key "AIC" rfl, key "VIR" rfl, key "ALM" rfl, key "AIR" rfl,
    key "SRT" rfl, key "BDP" rfl]

theorem zoneDispatch_eq {z : Nat} {p : List Char} {m : ParsedMessage}
    (h : zoneDispatch z p = some m) :
    m = .ZonePower z (hasSub "1" p) ∨
    (∃ v, searchVol p = some v ∧ m = .ZoneVolume z v) ∨
    m = .ZoneMute z (hasSub "1" p) ∨
    (∃ n, searchKeyNat "INP".toList p = some n ∧ m = .ZoneInput z n) ∨
    (∃ r, searchKeyRest "AIF".toList p = some r ∧ m = .ZoneAudioFormat z (pyStrip r).asString) ∨
    (∃ r, searchKeyRest "AIC".toList p = some r ∧ m = .ZoneAudioChannels z (pyStrip r).asString) ∨
    (∃ r, searchKeyRest "VIR".toList p = some r ∧ m = .ZoneVideoResolution z (pyStrip r).asString) ∨
    (∃ n, hasSub "?" p = false ∧ searchKeyNat "ALM".toList p = some n ∧
      m = .ZoneListeningMode z (_get_listening_mode_name n) n) ∨
    (∃ r, searchKeyRest "AIR".toList p = some r ∧ m = .ZoneSampleRateInfo z (pyStrip r).asString) ∨
    (∃ n, searchKeyNat "SRT".toList p = some n ∧ m = .ZoneSampleRate z n) ∨
    (∃ n, searchKeyNat "BDP".toList p = some n ∧ m = .ZoneBitDepth z n) := by
  unfold zoneDispatch at h
  rcases or_eq_some h with h | ⟨-, h⟩
  · by_cases hc : hasSub "POW" p = true
    · rw [if_pos hc] at h
      exact Or.inl (Option.some.inj h).symm
    · rw [if_neg hc] at h
      exact absurd h (by simp)
  rcases or_eq_some h with h | ⟨-, h⟩
  · by_cases hc : hasSub "VOL" p = true
    · rw [if_pos hc] at h
      obtain ⟨v, hv, hm⟩ := Option.map_eq_some'.mp h
      exact Or.inr (Or.inl ⟨v, hv, hm.symm⟩)
    · rw [if_neg hc] at h
      exact absurd h (by simp)
  rcases or_eq_some h with h | ⟨-, h⟩
  · by_cases hc : hasSub "MUT" p = true
    · rw [if_pos hc] at h
      exact Or.inr (Or.inr (Or.inl (Option.some.inj h).symm))
    · rw [if_neg hc] at h
      exact absurd h (by simp)
  rcases or_eq_some h with h | ⟨-, h⟩
  · by_cases hc : hasSub "INP" p = true
    · rw [if_pos hc] at h
      obtain ⟨n, hn, hm⟩ := Option.map_eq_some'.mp h
      exact Or.inr (Or.inr (Or.inr (Or.inl ⟨n, hn, hm.symm⟩)))
    · rw [if_neg hc] at h
      exact absurd h (by simp)
  rcases or_eq_some h with h | ⟨-, h⟩
  · by_cases hc : hasSub "AIF" p = true
    · rw [if_pos hc] at h
      obtain ⟨r, hr, hm⟩ := Option.map_eq_some'.mp h
      exact Or.inr (Or.inr (Or.inr (Or.inr (Or.inl ⟨r, hr, hm.symm⟩))))
    · rw [if_neg hc] at h
      exact absurd h (by simp)
  rcases or_eq_some h with h | ⟨-, h⟩
  · by_cases hc : hasSub "AIC" p = true
    · rw [if_pos hc] at h
      obtain ⟨r, hr, hm⟩ := Option.map_eq_some'.mp h
      exact Or.inr (Or.inr (Or.inr (Or.inr (Or.inr (Or.inl ⟨r, hr, hm.symm⟩)))))
    · rw [if_neg hc] at h
      exact absurd h (by simp)
  rcases or_eq_some h with h | ⟨-, h⟩
  · by_cases hc : hasSub "VIR" p = true
    · rw [if_pos hc] at h
      obtain ⟨r, hr, hm⟩ := Option.map_eq_some'.mp h
      exact Or.inr (Or.inr (Or.inr (Or.inr (Or.inr (Or.inr (Or.inl ⟨r, hr, hm.symm⟩))))))
    · rw [if_neg hc] at h
      exact absurd h (by simp)
  rcases or_eq_some h with h | ⟨-, h⟩
  · by_cases hc : (hasSub "ALM" p && ! (hasSub "?" p)) = true
    · rw [if_pos hc] at h
      simp only [Bool.and_eq_true, Bool.not_eq_true'] at hc
      obtain ⟨n, hn, hm⟩ := Option.map_eq_some'.mp h
      exact Or.inr (Or.inr (Or.inr (Or.inr (Or.inr (Or.inr (Or.inr (Or.inl
        ⟨n, hc.2, hn, hm.symm⟩)))))))
    · rw [if_neg hc] at h
      exact absurd h (by simp)
  rcases or_eq_some h with h | ⟨-, h⟩
  · by_cases hc : hasSub "AIR" p = true
    · rw [if_pos hc] at h
      obtain ⟨r, hr, hm⟩ := Option.map_eq_some'.mp h
      exact Or.inr (Or.inr (Or.inr (Or.inr (Or.inr (Or.inr (Or.inr (Or.inr (Or.inl
        ⟨r, hr, hm.symm⟩))))))))
    · rw [if_neg hc] at h
      exact absurd h (by simp)
  rcases or_eq_some h with h | ⟨-, h⟩
  · by_cases hc : hasSub "SRT" p = true
    · rw [if_pos hc] at h
      obtain ⟨n, hn, hm⟩ := Option.map_eq_some'.mp h
      exact Or.inr (Or.inr (Or.inr (Or.inr (Or.inr (Or.inr (Or.inr (Or.inr (Or.inr (Or.inl
        ⟨n, hn, hm.symm⟩)))))))))
    · rw [if_neg hc] at h
      exact absurd h (by simp)
  by_cases hc : hasSub "BDP" p = true
  · rw [if_pos hc] at h
    obtain ⟨n, hn, hm⟩ := Option.map_eq_some'.mp h
    exact Or.inr (Or.inr (Or.inr (Or.inr (Or.inr (Or.inr (Or.inr (Or.inr (Or.inr (Or.inr
      ⟨n, hn, hm.symm⟩)))))))))
  · rw [if_neg hc] at h
    exact absurd h (by simp)

theorem zoneDispatch_zoneOf {z : Nat} {p : List Char} {m : ParsedMessage}
    (h : zoneDispatch z p = some m) : zoneOf m = some z := by
  rcases zoneDispatch_eq h with h | ⟨v, _, h⟩ | h | ⟨n, _, h⟩ | ⟨r, _, h⟩ | ⟨r, _, h⟩ |
    ⟨r, _, h⟩ | ⟨n, _, _, h⟩ | ⟨r, _, h⟩ | ⟨n, _, h⟩ | ⟨n, _, h⟩ <;> subst h <;> rfl

theorem parse_message_zone {s : List Char} {m : ParsedMessage} {z : Nat}
    (h : parse_message s = some m) (hz : zoneOf m = some z) :
    ∃ p, matchZone s = some (z, p) ∧ zoneDispatch z p = some m := by
  unfold parse_message at h
  split at h
  · exact absurd h (by simp)
  split at h
  · exact absurd h (by simp)
  split at h
  · cases h; simp [zoneOf] at hz
  split at h
  · cases h; simp [zoneOf] at hz
  split at h
  · cases h; simp [zoneOf] at hz
  split at h
  · rename_i z' p' heq
    have h2 := zoneDispatch_zoneOf h
    rw [hz] at h2
    obtain rfl : z' = z := (Option.some.inj h2).symm
    exact ⟨p', heq, h⟩
  · exact absurd h (by simp)

theorem backtrackZ_shape {ds : List Char} {z : Nat} {p : List Char}
    (h : backtrackZ ds = some (z, p)) : ∃ c, p = [c] := by
  unfold backtrackZ at h
  split at h
  · exact absurd h (by simp)
  · simp only [Option.some.injEq, Prod.mk.injEq] at h
    exact ⟨ds.getLastD '0', h.2.symm⟩

theorem matchZone_eq {s : List Char} {z : Nat} {p : List Char}
    (h : matchZone s = some (z, p)) :
    ∃ rest, s = 'Z' :: rest ∧ rest.takeWhile Char.isDigit ≠ [] ∧
      ((z = digitsToNat (rest.takeWhile Char.isDigit) ∧
        p = (rest.dropWhile Char.isDigit).takeWhile (· != '\n')) ∨
       (∃ c, p = [c])) := by
  unfold matchZone at h
  split at h
  · rename_i rest
    refine ⟨rest, rfl, ?_, ?_⟩
    · unfold matchZoneAux at h
      intro hemp
      rw [if_pos (by simp [hemp])] at h
      exact absurd h (by simp)
    · unfold matchZoneAux at h
      split at h
      · exact absurd h (by simp)
      · split at h
        · exact Or.inr (backtrackZ_shape h)
        · split at h
          · exact Or.inr (backtrackZ_shape h)
          · rename_i tl c l heq hnc
            simp only [Option.some.injEq, Prod.mk.injEq] at h
            exact Or.inl ⟨h.1.symm, h.2.symm⟩
  · exact absurd h (by simp)

theorem takeWhile_append_all (f : Char → Bool) :
    ∀ (ds p : List Char), (∀ c ∈ ds, f c = true) → (∀ c ∈ p.take 1, f c = false) →
      (ds ++ p).takeWhile f = ds ∧ (ds ++ p).dropWhile f = p := by
  intro ds
  induction ds with
  | nil =>
    intro p _ hp
    cases p with
    | nil => simp
    | cons c t =>
      have hc : f c = false := hp c (by simp)
      constructor
      · simp [List.takeWhile_cons, hc]
      · simp [List.dropWhile_cons, hc]
  | cons d ds ih =>
    intro p hds hp
    have hd : f d = true := hds d (by simp)
    have hrec := ih p (fun c hc => hds c (by simp [hc])) hp
    constructor
    · simp [List.takeWhile_cons, hd, hrec.1]
    · simp [List.dropWhile_cons, hd, hrec.2]

theorem takeWhile_eq_self_of {f : Char → Bool} :
    ∀ {l : List Char}, (∀ c ∈ l, f c = true) → l.takeWhile f = l := by
  intro l
  induction l with
  | nil => intro _; rfl
  | cons c t ih =>
    intro h
    simp [List.takeWhile_cons, h c (by simp), ih (fun x hx => h x (by simp [hx]))]

theorem parse_canonical {ds p : List Char} (hds : ds ≠ [])
    (hdig : ∀ c ∈ ds, c.isDigit = true) (hp : p ≠ [])
    (hhead : ∀ c ∈ p.take 1, c.isDigit = false) (hnl : '\n' ∉ p) :
    parse_message ('Z' :: (ds ++ p)) = zoneDispatch (digitsToNat ds) p := by
  have hsplit := takeWhile_append_all Char.isDigit ds p hdig hhead
  have hparse : parse_message ('Z' :: (ds ++ p)) =
      match matchZone ('Z' :: (ds ++ p)) with
      | some (z, q) => zoneDispatch z q
      | none => none := rfl
  have hmz : matchZone ('Z' :: (ds ++ p)) =
      matchZoneAux ((ds ++ p).takeWhile Char.isDigit) ((ds ++ p).dropWhile Char.isDigit) := rfl
  rw [hparse, hmz, hsplit.1, hsplit.2]
  cases p with
  | nil => exact absurd rfl hp
  | cons c t =>
    have hcnl : ¬ (c = '\n') := fun hh => hnl (by simp [hh])
    have hself : (c :: t).takeWhile (· != '\n') = c :: t :=
      takeWhile_eq_self_of (fun x hx => by
        simp only [bne_iff_ne, ne_eq]
        intro hxe
        exact hnl (hxe ▸ hx))
    have hne : ¬ (ds.isEmpty = true) := by
      cases ds with
      | nil => exact absurd rfl hds
      | cons a l => simp
    have hred : matchZoneAux ds (c :: t) =
        some (digitsToNat ds, List.takeWhile (fun x => x != '\n') (c :: t)) := by
      unfold matchZoneAux
      rw [if_neg hne]
      show (if c = '\n' then backtrackZ ds
        else some (digitsToNat ds, List.takeWhile (fun x => x != '\n') (c :: t))) = _
      exact if_neg hcnl
    rw [hred, hself]


/-- C9: `parse_message` returns none for the empty string, for every line
beginning with the error prefixes "!I" or "!E" (error lines never produce a
state update), and for unrecognized input such as "GARBAGE". -/
theorem parse_rejects_errors_and_garbage :
    parse_message [] = none ∧
    (∀ t : List Char, parse_message ('!' :: 'I' :: t) = none) ∧
    (∀ t : List Char, parse_message ('!' :: 'E' :: t) = none) ∧
    parse_message ("GARBAGE".toList) = none := by
  refine ⟨rfl, fun t => ?_, fun t => ?_, by decide⟩
  · simp [parse_message, List.isPrefixOf]
  · simp [parse_message, List.isPrefixOf]

theorem parse_rejects_errors_and_garbage_witness :
    parse_message ('!' :: 'I' :: ("0".toList)) = none :=
  parse_rejects_errors_and_garbage.2.1 ("0".toList)

/-- C10: the remote entity's name-to-number listening-mode table is the exact
inverse of the parser's number-to-name table: both cover exactly the mode
numbers 0 through 15, and every entry (name, n) of `LISTENING_MODES` is
resolved by `_get_listening_mode_name` back to the same name. -/
theorem listening_mode_tables_inverse :
    mode_names.map Prod.fst = List.range 16 ∧
    LISTENING_MODES.map Prod.snd = List.range 16 ∧
    ∀ pr ∈ LISTENING_MODES, _get_listening_mode_name pr.2 = pr.1 :=
  ⟨by decide, by decide, by decide⟩

theorem listening_mode_tables_inverse_witness :
    _get_listening_mode_name 3 = "Dolby Surround" :=
  listening_mode_tables_inverse.2.2 ("Dolby Surround", 3) (by decide)

/-- C1 (code bug): at percentage 50 the source conversion `_percentage_to_db`
computes `int(50 * 90 - 90) = 4410` and clamps it to 0 dB (full volume),
while the conversion claimed by the spec, `round(pct * 90 / 100) - 90`
clamped, yields -45 dB; the source's own inverse `_db_to_percentage` maps
-45 dB to 50 %, so the source conversion (which never divides the
percentage by 100) fails to invert it. -/
theorem percentage_to_db_code_bug :
    _percentage_to_db 50 = 0 ∧ percentage_to_db_spec 50 = -45 ∧
    _db_to_percentage (-45) = 50 ∧ _percentage_to_db (_db_to_percentage (-45)) = 0 := by
  have h1 : _percentage_to_db 50 = 0 := by
    have e1 : (50 : ℚ) * 90 - 90 = ((4410 : ℤ) : ℚ) := by norm_num
    unfold _percentage_to_db pyTrunc
    rw [e1, if_pos (by positivity), Int.floor_intCast,
      min_eq_left (by norm_num), max_eq_right (by norm_num)]
  have h3 : _db_to_percentage (-45) = 50 := by
    unfold _db_to_percentage
    rw [show (((-45 : ℤ) : ℚ) + 90) / 90 * 100 = 50 by norm_num,
      min_eq_right (by norm_num), max_eq_right (by norm_num)]
  refine ⟨h1, ?_, h3, by rw [h3, h1]⟩
  have e2 : (50 : ℚ) * 90 / 100 = ((45 : ℤ) : ℚ) := by norm_num
  unfold percentage_to_db_spec
  rw [e2, round_intCast]
  norm_num

/-- C4 counterexample: the parser passes the out-of-range wire value -100
through unclamped, so a `ZoneVolume` message with `volume_db` outside
[-90, 0] is produced. -/
theorem volume_range_counterexample :
    parse_message ("Z1VOL-100".toList) = some (ParsedMessage.ZoneVolume 1 (-100)) ∧
    ¬ ((-90 : Int) ≤ -100) :=
  ⟨by decide, by decide⟩

/-- C5 counterexample: the payload "POWALM3" contains "ALM", contains no
`?`, and an integer follows "ALM", yet the higher-priority "POW" keyword
wins and the line parses as `ZonePower`, not `ZoneListeningMode`. -/
theorem alm_priority_counterexample :
    parse_message ("Z1POWALM3".toList) = some (ParsedMessage.ZonePower 1 false) := by
  decide

/-- C8 counterexample: the line "Z0POW1" parses to a zone-scoped message
whose zone is 0, which is not a positive integer. -/
theorem zone_positive_counterexample :
    parse_message ("Z0POW1".toList) = some (ParsedMessage.ZonePower 0 true) ∧ ¬ (0 < 0) :=
  ⟨by decide, by decide⟩

/-- C2: for a line `Z<digits><payload>` (nonempty maximal digit token,
nonempty newline-free payload), a payload containing "POW" parses as
`ZonePower` with `is_on` true iff the payload contains the character '1'
anywhere; a payload containing "MUT", when no earlier keyword matched
(no "POW" substring and no "VOL" integer extraction), parses as `ZoneMute`
with the same substring-containment rule for `is_muted`. -/
theorem pow_mut_substring_one {ds p : List Char} (hds : ds ≠ [])
    (hdig : ∀ c ∈ ds, c.isDigit = true) (hp : p ≠ [])
    (hhead : ∀ c ∈ p.take 1, c.isDigit = false) (hnl : '\n' ∉ p) :
    (hasSub "POW" p = true →
      parse_message ('Z' :: (ds ++ p)) =
        some (ParsedMessage.ZonePower (digitsToNat ds) (hasSub "1" p))) ∧
    (hasSub "POW" p = false → searchVol p = none → hasSub "MUT" p = true →
      parse_message ('Z' :: (ds ++ p)) =
        some (ParsedMessage.ZoneMute (digitsToNat ds) (hasSub "1" p))) := by
  rw [parse_canonical hds hdig hp hhead hnl]
  constructor
  · intro hPOW
    simp [zoneDispatch, hPOW]
  · intro hPOW hVOL hMUT
    simp [zoneDispatch, hPOW, hVOL, hMUT]

theorem pow_mut_substring_one_witness :
    parse_message ('Z' :: (['1'] ++ "POW10".toList)) =
      some (ParsedMessage.ZonePower 1 true) := by
  have h := (@pow_mut_substring_one ['1'] ("POW10".toList)
    (by decide) (by decide) (by decide) (by decide) (by decide)).1 (by decide)
  exact h

/-- C4 (amended): a `ZoneVolume` message carries exactly the signed integer
that the `VOL(-?\d+)` search extracts from the payload, with no clamping;
so `volume_db` lies in [-90, 0] only when the wire value does. -/
theorem volume_unclamped {s : List Char} {z : Nat} {v : Int}
    (h : parse_message s = some (ParsedMessage.ZoneVolume z v)) :
    ∃ p, matchZone s = some (z, p) ∧ searchVol p = some v := by
  obtain ⟨p, hmz, hd⟩ := parse_message_zone h (by rfl)
  rcases zoneDispatch_eq hd with hh | ⟨w, hw, hh⟩ | hh | ⟨n, hn, hh⟩ | ⟨r, hr, hh⟩ |
      ⟨r, hr, hh⟩ | ⟨r, hr, hh⟩ | ⟨n, hq, hn, hh⟩ | ⟨r, hr, hh⟩ | ⟨n, hn, hh⟩ | ⟨n, hn, hh⟩
  · simp at hh
  · injection hh with h1 h2
    subst h2
    exact ⟨p, hmz, hw⟩
  · simp at hh
  · simp at hh
  · simp at hh
  · simp at hh
  · simp at hh
  · simp at hh
  · simp at hh
  · simp at hh
  · simp at hh

theorem volume_unclamped_witness :
    ∃ p, matchZone ("Z1VOL-35".toList) = some (1, p) ∧ searchVol p = some (-35) :=
  volume_unclamped
    (show parse_message ("Z1VOL-35".toList) = some (ParsedMessage.ZoneVolume 1 (-35)) by decide)

/-- C8 (amended): every zone-scoped message returned by the parser carries a
zone equal to the decimal value of the nonempty digit token following 'Z'
in the source line — a nonnegative (not necessarily positive) integer. -/
theorem zone_matches_digit_token {s : List Char} {m : ParsedMessage} {z : Nat}
    (h : parse_message s = some m) (hz : zoneOf m = some z) :
    ∃ rest, s = 'Z' :: rest ∧ rest.takeWhile Char.isDigit ≠ [] ∧
      z = digitsToNat (rest.takeWhile Char.isDigit) := by
  obtain ⟨p, hmz, hd⟩ := parse_message_zone h hz
  obtain ⟨rest, rfl, hne, hcase⟩ := matchZone_eq hmz
  rcases hcase with ⟨hzv, hpv⟩ | ⟨c, rfl⟩
  · exact ⟨rest, rfl, hne, hzv⟩
  · rw [zoneDispatch_single z c] at hd
    exact absurd hd (by simp)

theorem zone_matches_digit_token_witness :
    ∃ rest, ("Z2POW1".toList) = 'Z' :: rest ∧ rest.takeWhile Char.isDigit ≠ [] ∧
      2 = digitsToNat (rest.takeWhile Char.isDigit) :=
  zone_matches_digit_token
    (show parse_message ("Z2POW1".toList) = some (ParsedMessage.ZonePower 2 true) by decide)
    (by rfl)

/-- C5 (amended): for a line `Z<digits><payload>` whose payload contains
"ALM", no '?', and none of the higher-priority dispatch keywords (POW, VOL,
MUT, INP, AIF, AIC, VIR), an integer following "ALM" parses to
`ZoneListeningMode` with the name resolved by the 16-entry table (mode 3 is
"Dolby Surround", unknown 99 is "Mode 99"); and a payload containing '?'
never yields a `ZoneListeningMode` for any input line. -/
theorem alm_resolves_listening_mode :
    (∀ (ds p : List Char), ds ≠ [] → (∀ c ∈ ds, c.isDigit = true) → p ≠ [] →
      (∀ c ∈ p.take 1, c.isDigit = false) → '\n' ∉ p →
      hasSub "POW" p = false → hasSub "VOL" p = false → hasSub "MUT" p = false →
      hasSub "INP" p = false → hasSub "AIF" p = false → hasSub "AIC" p = false →
      hasSub "VIR" p = false → hasSub "ALM" p = true → hasSub "?" p = false →
      ∀ n, searchKeyNat ("ALM".toList) p = some n →
        parse_message ('Z' :: (ds ++ p)) =
          some (ParsedMessage.ZoneListeningMode (digitsToNat ds)
            (_get_listening_mode_name n) n)) ∧
    (∀ (s : List Char) (z : Nat) (nm : String) (k : Nat),
      parse_message s = some (ParsedMessage.ZoneListeningMode z nm k) →
      ∃ p, matchZone s = some (z, p) ∧ hasSub "?" p = false) ∧
    parse_message ("Z1ALM3".toList) =
      some (ParsedMessage.ZoneListeningMode 1 "Dolby Surround" 3) ∧
    parse_message ("Z1ALM99".toList) =
      some (ParsedMessage.ZoneListeningMode 1 "Mode 99" 99) := by
  refine ⟨?_, ?_, by decide, by decide⟩
  · intro ds p hds hdig hp hhead hnl hPOW hVOL hMUT hINP hAIF hAIC hVIR hALM hq n hn
    rw [parse_canonical hds hdig hp hhead hnl]
    have hn2 : searchKeyNat ['A', 'L', 'M'] p = some n := hn
    simp [zoneDispatch, hPOW, hVOL, hMUT, hINP, hAIF, hAIC, hVIR, hALM, hq, hn2]
  · intro s z nm k h
    obtain ⟨p, hmz, hd⟩ := parse_message_zone h (by rfl)
    rcases zoneDispatch_eq hd with hh | ⟨w, hw, hh⟩ | hh | ⟨n, hn, hh⟩ | ⟨r, hr, hh⟩ |
        ⟨r, hr, hh⟩ | ⟨r, hr, hh⟩ | ⟨n, hq, hn, hh⟩ | ⟨r, hr, hh⟩ | ⟨n, hn, hh⟩ | ⟨n, hn, hh⟩
    · simp at hh
    · simp at hh
    · simp at hh
    · simp at hh
    · simp at hh
    · simp at hh
    · simp at hh
    · exact ⟨p, hmz, hq⟩
    · simp at hh
    · simp at hh
    · simp at hh

theorem alm_resolves_listening_mode_witness :
    parse_message ('Z' :: (['1'] ++ "ALM5".toList)) =
      some (ParsedMessage.ZoneListeningMode 1 "Stereo" 5) := by
  have h := alm_resolves_listening_mode.1 ['1'] ("ALM5".toList) (by decide) (by decide)
    (by decide) (by decide) (by decide) (by decide) (by decide) (by decide) (by decide)
    (by decide) (by decide) (by decide) (by decide) (by decide) 5 (by decide)
  exact h

theorem findSome_cons_or {α β : Type} (f : α → Option β) (a : α) (l : List α) :
    (a :: l).findSome? f = (f a <|> l.findSome? f) := by
  cases h : f a <;> simp [List.findSome?_cons, h]

theorem orElse_none_eq {α : Type} (o : Option α) : (o <|> none) = o := by
  cases o <;> rfl

/-- C6: the zone dispatch equals its spec-side formulation — walk the fixed
priority order POW, VOL, MUT, INP, AIF, AIC, VIR, ALM, AIR, SRT, BDP and
return the first keyword whose extraction completes; in particular a
payload containing both "POW" and "MUT" always yields `ZonePower`. -/
theorem dispatch_priority_order :
    (∀ (z : Nat) (p : List Char), zoneDispatch z p = zoneDispatchSpec z p) ∧
    (∀ (z : Nat) (p : List Char), hasSub "POW" p = true → hasSub "MUT" p = true →
      zoneDispatch z p = some (ParsedMessage.ZonePower z (hasSub "1" p))) := by
  constructor
  · intro z p
    unfold zoneDispatchSpec dispatchOrder
    rw [findSome_cons_or, findSome_cons_or, findSome_cons_or, findSome_cons_or,
      findSome_cons_or, findSome_cons_or, findSome_cons_or, findSome_cons_or,
      findSome_cons_or, findSome_cons_or, findSome_cons_or,
      show List.findSome? (keywordExtract z p) [] = none from rfl, orElse_none_eq]
    rfl
  · intro z p hPOW hMUT
    simp [zoneDispatch, hPOW]

theorem dispatch_priority_order_witness :
    zoneDispatch 1 ("POWMUT1".toList) = some (ParsedMessage.ZonePower 1 true) := by
  have h := dispatch_priority_order.2 1 ("POWMUT1".toList) (by decide) (by decide)
  exact h

/-- C7: encoding a volume percentage at or below 0 yields exactly -90 dB,
at or above 100 yields exactly 0 dB, and every encoded value lies within
[-90, 0] (the clamp in `_percentage_to_db` guarantees this even though the
unclamped integer is wrong for intermediate percentages, see C1). -/
theorem volume_encode_clamped (pct : ℚ) :
    (pct ≤ 0 → _percentage_to_db pct = -90) ∧
    (100 ≤ pct → _percentage_to_db pct = 0) ∧
    (-90 ≤ _percentage_to_db pct ∧ _percentage_to_db pct ≤ 0) := by
  have hbounds : ∀ x : ℤ, -90 ≤ max (-90) (min 0 x) ∧ max (-90) (min 0 x) ≤ 0 :=
    fun x => ⟨le_max_left _ _, max_le (by norm_num) (min_le_left _ _)⟩
  refine ⟨?_, ?_, hbounds _⟩
  · intro h
    have hq : pct * 90 - 90 ≤ -90 := by nlinarith
    have hneg : ¬ ((0 : ℚ) ≤ pct * 90 - 90) := by linarith
    have hceil : ⌈pct * 90 - 90⌉ ≤ -90 := by
      rw [show (-90 : ℤ) = ⌈((-90 : ℤ) : ℚ)⌉ from by rw [Int.ceil_intCast]]
      exact Int.ceil_le_ceil (by push_cast; linarith)
    unfold _percentage_to_db pyTrunc
    rw [if_neg hneg, min_eq_right (le_trans hceil (by norm_num)), max_eq_left hceil]
  · intro h
    have hq : (0 : ℚ) ≤ pct * 90 - 90 := by nlinarith
    have hfl : (0 : ℤ) ≤ ⌊pct * 90 - 90⌋ := by
      rw [Int.le_floor]
      push_cast
      linarith
    unfold _percentage_to_db pyTrunc
    rw [if_pos hq, min_eq_left hfl, max_eq_right (by norm_num)]

theorem volume_encode_clamped_witness :
    _percentage_to_db (-3) = -90 ∧ _percentage_to_db 250 = 0 ∧
    (-90 ≤ _percentage_to_db 37 ∧ _percentage_to_db 37 ≤ 0) :=
  ⟨(volume_encode_clamped (-3)).1 (by norm_num),
   (volume_encode_clamped 250).2.1 (by norm_num),
   (volume_encode_clamped 37).2.2⟩

/-- C3: folding sensor telemetry (audio format, channels, resolution,
listening mode, sample-rate family and rate, bit depth) emits a subscriber
notification iff the message's zone is 1, while the stored zone state is
updated for every zone; non-sensor fields (power, volume, mute, input) emit
for every zone. -/
theorem sensor_telemetry_zone1_only (d : AnthemDevice) (z : Nat) (s : String)
    (b : Bool) (n : Nat) (v : Int) (k : Nat) :
    (((_handle_message d (ParsedMessage.ZoneAudioFormat z s)).1.zones z).audio_format = s ∧
      ((_handle_message d (ParsedMessage.ZoneAudioFormat z s)).2 ≠ [] ↔ z = 1)) ∧
    (((_handle_message d (ParsedMessage.ZoneAudioChannels z s)).1.zones z).audio_channels = s ∧
      ((_handle_message d (ParsedMessage.ZoneAudioChannels z s)).2 ≠ [] ↔ z = 1)) ∧
    (((_handle_message d (ParsedMessage.ZoneVideoResolution z s)).1.zones z).video_resolution = s ∧
      ((_handle_message d (ParsedMessage.ZoneVideoResolution z s)).2 ≠ [] ↔ z = 1)) ∧
    (((_handle_message d (ParsedMessage.ZoneListeningMode z s k)).1.zones z).listening_mode = s ∧
      ((_handle_message d (ParsedMessage.ZoneListeningMode z s k)).2 ≠ [] ↔ z = 1)) ∧
    (((_handle_message d (ParsedMessage.ZoneSampleRateInfo z s)).1.zones z).sample_rate = s ∧
      ((_handle_message d (ParsedMessage.ZoneSampleRateInfo z s)).2 ≠ [] ↔ z = 1)) ∧
    ((_handle_message d (ParsedMessage.ZoneSampleRate z n)).2 ≠ [] ↔ z = 1) ∧
    ((_handle_message d (ParsedMessage.ZoneBitDepth z n)).2 ≠ [] ↔ z = 1) ∧
    (_handle_message d (ParsedMessage.ZonePower z b)).2 ≠ [] ∧
    (_handle_message d (ParsedMessage.ZoneVolume z v)).2 ≠ [] ∧
    (_handle_message d (ParsedMessage.ZoneMute z b)).2 ≠ [] ∧
    (_handle_message d (ParsedMessage.ZoneInput z n)).2 ≠ [] := by
  have hemit : ∀ (x : Option Nat × String),
      ((if _is_sensor_zone z then [x] else []) ≠ [] ↔ z = 1) := by
    intro x
    by_cases hz : z = 1
    · simp [_is_sensor_zone, hz]
    · simp [_is_sensor_zone, hz]
  have hupd : ∀ (f : ZoneState → ZoneState), (updateZone d z f).zones z = f (d.zones z) := by
    intro f
    simp [updateZone]
  refine ⟨⟨?_, ?_⟩, ⟨?_, ?_⟩, ⟨?_, ?_⟩, ⟨?_, ?_⟩, ⟨?_, ?_⟩, ?_, ?_, ?_, ?_, ?_, ?_⟩
  · simp [_handle_message, hupd]
  · simp only [_handle_message]
    exact hemit _
  · simp [_handle_message, hupd]
  · simp only [_handle_message]
    exact hemit _
  · simp [_handle_message, hupd]
  · simp only [_handle_message]
    exact hemit _
  · simp [_handle_message, hupd]
  · simp only [_handle_message]
    exact hemit _
  · simp [_handle_message, hupd]
  · simp only [_handle_message]
    exact hemit _
  · simp only [_handle_message]
    exact hemit _
  · simp only [_handle_message]
    exact hemit _
  · simp [_handle_message]
  · simp [_handle_message]
  · simp [_handle_message]
  · simp [_handle_message]

theorem sensor_telemetry_zone1_only_witness :
    ((_handle_message initDevice (ParsedMessage.ZoneAudioFormat 2 "Stereo")).1.zones 2).audio_format
        = "Stereo" ∧
    ((_handle_message initDevice (ParsedMessage.ZoneAudioFormat 2 "Stereo")).2 ≠ [] ↔ (2 : Nat) = 1) :=
  (sensor_telemetry_zone1_only initDevice 2 "Stereo" false 0 0 0).1
